import Mathlib

/-!
Verification development for the ghostgpt repository (a browser-automation
bridge exposing a chat web UI as an OpenAI-compatible API).

The repository contains two parallel driver/server stacks:
  src/customgpts (the newer one) and src/ghostgpt (the older one).
Both drivers detect answer completion by polling the DOM.  This file embeds,
as pure Lean functions, the poll-level logic of:
  - the two-phase completion detector (driver.py, _wait_for_response),
  - the streaming delta engine (customgpts/driver.py, send_prompt_streaming),
  - the navigation guard (driver.py, _ensure_page),
  - the response extractor (driver.py, _extract_response),
  - the server registry operations (customgpts/server.py: _cleanup_idle,
    _flatten_messages, chat_completions conversation handling), and
  - a small interleaving semantics for the request semaphore.

Time is modelled in poll ticks (the code sleeps a fixed interval per tick);
the DOM is modelled as the sequence of observations the code would read.
-/

namespace GhostGPT

/-! ## Poll observations

Each iteration of a detector loop queries the assistant-message selectors.
Either no selector matches any element (the loop body falls through), or the
first matching selector yields a list of elements: the loop then sees the
element count, the text of the last element, and whether a completion
indicator button is present in the enclosing article of the last element.
-/

/-- What one poll of the assistant-message selectors observes:
either no selector matched, or the first matching selector yielded
a count of elements, the text of the last element (as a character list),
and whether a completion-indicator button is present on that element. -/
inductive PollObs where
  | noneFound : PollObs
  | found (count : Nat) (lastText : List Char) (indicator : Bool) : PollObs
deriving Repr, DecidableEq

/-- Maximum response wait in seconds (MAX_RESPONSE_WAIT in both drivers). -/
def MAX_RESPONSE_WAIT : Nat := 300

/-- Poll interval of phase 1 and of the non-streaming phase 2, in tenths of
a second (the code sleeps 0.5 s per iteration). -/
def POLL_TICK_TENTHS : Nat := 5

/-- Number of phase-1 iterations in the customgpts driver
(driver.py line 402: range of 120, at 0.5 s per tick). -/
def phase1ItersCustom : Nat := 120

/-- Number of phase-1 iterations in the ghostgpt driver
(ghostgpt/driver.py line 235: range of 60, at 0.5 s per tick). -/
def phase1ItersGhost : Nat := 60

/-! ## Phase 1 (AwaitingStart)

Both drivers poll the assistant-message count every 0.5 s and leave phase 1
at the first tick whose count strictly exceeds the pre-submission baseline.
If the iteration bound expires, the wait returns softly (a warning is
logged, nothing is raised).
-/

/-- Phase 1 of _wait_for_response: scan ticks 0, 1, ... below the iteration
bound and return the first tick at which the observed assistant-message
count strictly exceeds the baseline, or none if the bound expires. -/
def phase1Run (maxIters prevCount : Nat) (counts : Nat → Nat) : Option Nat :=
  (List.range maxIters).find? (fun i => decide (prevCount < counts i))

/-- Phase 1 of the customgpts driver: 120 polls of 0.5 s (60 s window). -/
def phase1Custom (prevCount : Nat) (counts : Nat → Nat) : Option Nat :=
  phase1Run phase1ItersCustom prevCount counts

/-- Phase 1 of the ghostgpt driver: 60 polls of 0.5 s (30 s window). -/
def phase1Ghost (prevCount : Nat) (counts : Nat → Nat) : Option Nat :=
  phase1Run phase1ItersGhost prevCount counts

/-! ## Phase 2 (AwaitingCompletion), non-streaming

The customgpts driver guards each tick: if the observed count has dropped
back to (or below) the baseline, the tick is inconclusive and the last
element is not inspected.  The ghostgpt driver has no such guard: it
inspects the last matched element on every tick on which any selector
matches.
-/

/-- One phase-2 tick of the customgpts _wait_for_response
(driver.py lines 415-441).  Returns (inspectedLast, completed):
whether the last element was inspected for completion indicators, and
whether the tick reports completion.  A tick whose observed count is at
most the baseline is inconclusive: the stale last element is not read. -/
def phase2TickCustom (prevCount : Nat) (obs : PollObs) : Bool × Bool :=
  match obs with
  | .noneFound => (false, false)
  | .found count _ indicator =>
    if count ≤ prevCount then (false, false)
    else (true, indicator)

/-- One phase-2 tick of the ghostgpt _wait_for_response
(ghostgpt/driver.py lines 246-268).  There is no count guard: whenever a
selector matches, the last element is inspected and its indicator decides
completion. -/
def phase2TickGhost (_prevCount : Nat) (obs : PollObs) : Bool × Bool :=
  match obs with
  | .noneFound => (false, false)
  | .found _ _ indicator => (true, indicator)

/-- Index of the first tick (within the 600-iteration ceiling,
MAX_RESPONSE_WAIT * 2) at which the customgpts phase 2 reports completion,
or none when the ceiling expires first. -/
def phase2CompletionIdx (prevCount : Nat) (trace : List PollObs) : Option Nat :=
  (trace.take (MAX_RESPONSE_WAIT * 2)).findIdx?
    (fun obs => (phase2TickCustom prevCount obs).2)

/-- Outcome of _wait_for_response: either a new message appeared at some
phase-1 tick (with the phase-2 completion tick, if any, recorded), or no
new message appeared within the phase-1 bound. -/
inductive WaitOutcome where
  | newMessage (startTick : Nat) (completionTick : Option Nat) : WaitOutcome
  | noAnswer : WaitOutcome
deriving Repr, DecidableEq

/-- The customgpts _wait_for_response as a whole: phase 1 then phase 2.
Both outcomes return normally; nothing is raised. -/
def waitForResponseCustom (prevCount : Nat) (counts : Nat → Nat)
    (trace : List PollObs) : WaitOutcome :=
  match phase1Custom prevCount counts with
  | none => .noAnswer
  | some i => .newMessage i (phase2CompletionIdx prevCount trace)

/-! ## Streaming delta engine (customgpts send_prompt_streaming, phase 2)

Every 0.3 s the loop reads the text of the last assistant element (stripped),
guarded by the same count guard as the non-streaming phase 2.  When the text
is strictly longer than the previously recorded text, the new suffix is
yielded as a delta and the recorded text is updated.  When a completion
indicator is present the loop additionally yields any uncovered suffix and
ends the stream.  Text is modelled as a list of characters.
-/

/-- Python str.strip: drop whitespace from both ends of a character list. -/
def stripChars (l : List Char) : List Char :=
  ((l.dropWhile Char.isWhitespace).reverse.dropWhile Char.isWhitespace).reverse

/-- Python str.strip on a Lean string. -/
def stripStr (s : String) : String := ⟨stripChars s.data⟩

/-- Substring containment on character lists (the Python in operator on
strings). -/
def listContains (hay needle : List Char) : Bool :=
  match hay with
  | [] => needle.isEmpty
  | _ :: t => needle.isPrefixOf hay || listContains t needle

/-- Effective text a streaming tick works with (driver.py lines 563-586):
empty when no selector matched or when the count guard fires, otherwise the
stripped text of the last matched element. -/
def streamText (prevCount : Nat) (obs : PollObs) : List Char :=
  match obs with
  | .noneFound => []
  | .found count text _ => if count ≤ prevCount then [] else stripChars text

/-- Whether a streaming tick observes the completion indicator (false on
guard ticks and when no selector matched). -/
def streamCompleted (prevCount : Nat) (obs : PollObs) : Bool :=
  match obs with
  | .noneFound => false
  | .found count _ indicator => if count ≤ prevCount then false else indicator

/-- The streaming phase-2 loop (driver.py lines 558-602) over a trace of
poll observations, starting from a recorded text.  Returns the list of
emitted deltas in emission order, the final recorded text, and, when a
completion indicator ended the stream, the effective text observed at the
ending tick. -/
def streamRun (prevCount : Nat) (prevText : List Char) :
    List PollObs → List (List Char) × List Char × Option (List Char)
  | [] => ([], prevText, none)
  | obs :: rest =>
    let cur := streamText prevCount obs
    let grew := prevText.length < cur.length
    let prev2 := if grew then cur else prevText
    let ds1 : List (List Char) := if grew then [cur.drop prevText.length] else []
    if streamCompleted prevCount obs then
      let extra : List (List Char) :=
        if prev2.length < cur.length then [cur.drop prev2.length] else []
      (ds1 ++ extra, prev2, some cur)
    else
      let (ds, pf, fin) := streamRun prevCount prev2 rest
      (ds1 ++ ds, pf, fin)

/-- The streaming phase 2 as the code runs it: recorded text starts empty
and at most MAX_RESPONSE_WAIT * 3 ticks (0.3 s each) are polled. -/
def sendPromptStreamingPhase2 (prevCount : Nat) (trace : List PollObs) :
    List (List Char) × List Char × Option (List Char) :=
  streamRun prevCount [] (trace.take (MAX_RESPONSE_WAIT * 3))

/-! ## Response extraction (_extract_response, identical in both drivers)

The extractor takes the last element matched by the assistant fallbacks,
prefers its rendered text, falls back to its raw markup when the stripped
text is empty, and appends an annotation per extracted image.  When no
selector matches anything it returns a fixed error string (no exception).
-/

/-- An image reference extracted from an assistant message (url and alt
text), after deduplication by url in _extract_images. -/
structure ImageRef where
  url : String
  altText : String
deriving Repr, DecidableEq

/-- An assistant-message element as the extractor reads it: rendered text,
raw markup, and the image references found inside it. -/
structure MsgElem where
  innerText : String
  innerHtml : String
  images : List ImageRef
deriving Repr, DecidableEq

/-- Annotation appended to the result for image number i (0-based):
caption line, saved path when the download sink produced one, and the
original url (driver.py lines 736-743). -/
def imageAnnotation (download : String → Option String) (i : Nat)
    (img : ImageRef) : String :=
  let s := "\n\n[Image " ++ toString (i + 1) ++ "]"
  let s := if img.altText ≠ "" then s ++ " " ++ img.altText else s
  let s := match download img.url with
    | some p => s ++ "\n  Saved: " ++ p
    | none => s
  s ++ "\n  URL: " ++ img.url

/-- The _extract_response logic (driver.py lines 693-745): msgs is the
element list produced by the first assistant selector that matched, and
download models the media sink (None on a failed download). -/
def extractResponse (download : String → Option String)
    (msgs : List MsgElem) : String :=
  match msgs.getLast? with
  | none => "Error: No assistant message found."
  | some m =>
    let content := if stripStr m.innerText = "" then m.innerHtml else m.innerText
    let base := stripStr content
    base ++ String.join (m.images.enum.map (fun p => imageAnnotation download p.1 p.2))

/-- The whole send_prompt tail (driver.py lines 514-521): after waiting for
the response — whatever the wait outcome, including the soft no-answer
timeout — the extraction result is returned; nothing is raised. -/
def sendPromptCustom (prevCount : Nat) (counts : Nat → Nat)
    (trace : List PollObs) (download : String → Option String)
    (finalMsgs : List MsgElem) : String :=
  match waitForResponseCustom prevCount counts trace with
  | .noAnswer => extractResponse download finalMsgs
  | .newMessage _ _ => extractResponse download finalMsgs

/-! ## Navigation guard (_ensure_page, identical logic in both drivers)

After creating a page if none exists, the guard compares the current url to
the target url; on equality it returns at once.  Otherwise it navigates,
waits out a possible challenge screen, suppresses and dismisses first-run
dialogs, checks login indicators (a visible indicator raises, and the
surrounding except re-raises exactly the messages containing the text
logged out), and finally waits for the prompt input.
-/

/-- Base url of the remote application (selectors.py BASE_URL). -/
def BASE_URL : String := "https://chatgpt.com"

/-- Target url computed by _ensure_page: the base app, or the named
variant when a gpt id is supplied. -/
def targetUrl (gptId : Option String) : String :=
  match gptId with
  | some g => BASE_URL ++ "/g/" ++ g
  | none => BASE_URL

/-- Observation of one login-indicator probe: the element is visible, not
visible, or the probe itself threw (with the thrown message). -/
inductive IndicatorObs where
  | visible : IndicatorObs
  | hidden : IndicatorObs
  | errored (msg : String) : IndicatorObs
deriving Repr, DecidableEq

/-- Whether a message contains the text logged out — the filter the except
clause in _ensure_page applies before re-raising. -/
def mentionsLoggedOut (msg : String) : Bool :=
  listContains msg.data "logged out".data

/-- Message raised by the customgpts driver on a visible login indicator. -/
def loggedOutMsgCustom : String :=
  "User appears to be logged out. Run \x27customgpts login\x27 first."

/-- Message raised by the ghostgpt driver on a visible login indicator. -/
def loggedOutMsgGhost : String :=
  "User appears to be logged out. Run \x27ghostgpt login\x27 first."

/-- One iteration of the login-indicator loop: a visible indicator raises
raiseMsg; the except clause swallows any caught message unless it contains
the text logged out, in which case it re-raises. -/
def loginStep (raiseMsg : String) (o : IndicatorObs) : Except String Unit :=
  let attempt : Except String Unit :=
    match o with
    | .visible => .error raiseMsg
    | .hidden => .ok ()
    | .errored m => .error m
  match attempt with
  | .error m => if mentionsLoggedOut m then .error m else .ok ()
  | .ok _ => .ok ()

/-- The login-indicator loop of _ensure_page: the first re-raised message
propagates out of the whole navigation step. -/
def loginCheck (raiseMsg : String) : List IndicatorObs → Except String Unit
  | [] => .ok ()
  | o :: rest =>
    match loginStep raiseMsg o with
    | .error m => .error m
    | .ok _ => loginCheck raiseMsg rest

/-- Which stages of _ensure_page actually executed during one call. -/
structure Effects where
  createdPage : Bool
  navigated : Bool
  challengeWaited : Bool
  dialogsDismissed : Bool
  loginChecked : Bool
  promptWaited : Bool
deriving Repr, DecidableEq

/-- No stage executed. -/
def noEffects : Effects :=
  { createdPage := false, navigated := false, challengeWaited := false,
    dialogsDismissed := false, loginChecked := false, promptWaited := false }

/-- Message raised when the challenge screen never resolves. -/
def cloudflareMsg : String :=
  "Stuck on Cloudflare challenge. Try \x27customgpts ask --no-headless\x27 or run \x27customgpts login\x27 first."

/-- Environment a navigation call runs in: whether the challenge screen
resolves within its 30 ticks, what the login-indicator probes observe, and
whether a prompt-input selector becomes visible in time. -/
structure NavWorld where
  cfResolves : Bool
  loginObs : List IndicatorObs
  promptFound : Bool

/-- The _ensure_page logic (customgpts driver.py lines 104-178; same
structure at ghostgpt driver.py lines 43-103).  The page url is None when
no page exists yet (a fresh tab starts at about:blank).  Returns the
stages executed and the outcome. -/
def ensurePage (pageUrl : Option String) (gptId : Option String)
    (w : NavWorld) : Effects × Except String Unit :=
  let e0 : Effects := { noEffects with createdPage := pageUrl.isNone }
  let url := pageUrl.getD "about:blank"
  if url = targetUrl gptId then (e0, .ok ())
  else
    let e1 := { e0 with navigated := true, challengeWaited := true }
    if !w.cfResolves then (e1, .error cloudflareMsg)
    else
      let e2 := { e1 with dialogsDismissed := true }
      match loginCheck loggedOutMsgCustom w.loginObs with
      | .error m => ({ e2 with loginChecked := true }, .error m)
      | .ok _ =>
        let e3 := { e2 with loginChecked := true, promptWaited := true }
        if w.promptFound then (e3, .ok ())
        else (e3, .error "Timed out waiting for prompt textarea.")

/-- The _send_and_get_prev_count logic (driver.py lines 443-496): ensure
placement unless continuing an active conversation, then require a visible
prompt box, type and submit.  Returns the stages executed, whether a prompt
was submitted, and the baseline count or the propagated error. -/
def sendAndGetPrevCount (pageUrl : Option String) (gptId : Option String)
    (w : NavWorld) (continueConversation inConversation : Bool)
    (promptVisible : Bool) (prevCount : Nat) :
    Effects × Bool × Except String Nat :=
  let nav : Effects × Except String Unit :=
    if continueConversation && inConversation then (noEffects, .ok ())
    else ensurePage pageUrl gptId w
  match nav with
  | (e, .error m) => (e, false, .error m)
  | (e, .ok _) =>
    if promptVisible then (e, true, .ok prevCount)
    else (e, false, .error "Prompt box not visible.")

/-! ## Conversation registry and idle sweep (customgpts server.py)

The server keeps a dict from conversation id to (driver, last-used
timestamp).  The sweep _cleanup_idle runs at the start of every request:
it first collects every id whose entry is older than IDLE_TIMEOUT, then
pops each collected id and closes its page best-effort.  The registry is
modelled as an association list (insertion-ordered, distinct keys, like a
Python dict); a driver is modelled by an id, a page flag and a mid-turn
flag (the sweep never reads the latter).
-/

/-- Idle timeout in seconds (server.py IDLE_TIMEOUT). -/
def IDLE_TIMEOUT : Int := 1800

/-- The driver half of a registry entry, as far as the sweep can see it:
an identity, whether it has an open page, and whether a request is
currently driving it (the code never consults this flag). -/
structure ConvDriver where
  driverId : Nat
  hasPage : Bool
  midTurn : Bool
deriving Repr, DecidableEq

/-- One registry entry: conversation id, driver, last-used timestamp. -/
abbrev ConvEntry := String × ConvDriver × Int

/-- The ids collected by the first loop of _cleanup_idle (server.py lines
106-109): exactly those whose entry is strictly older than IDLE_TIMEOUT. -/
def idleIds (now : Int) (reg : List ConvEntry) : List String :=
  (reg.filter (fun e => decide (IDLE_TIMEOUT < now - e.2.2))).map (fun e => e.1)

/-- The second loop of _cleanup_idle (server.py lines 110-117): pop each
collected id and, when its driver has a page, attempt to close it; a close
failure (closeFails) is swallowed and changes nothing.  Returns the
surviving registry, the popped ids, and the ids whose page close
succeeded. -/
def cleanupIdle (closeFails : String → Bool) (now : Int)
    (reg : List ConvEntry) : List ConvEntry × List String × List String :=
  let rem := idleIds now reg
  let closed := (reg.filter (fun e =>
      decide (IDLE_TIMEOUT < now - e.2.2) && e.2.1.hasPage && !(closeFails e.1))).map
    (fun e => e.1)
  (rem.foldl (fun r k => r.eraseP (fun e => e.1 == k)) reg, rem, closed)

/-! ## Message flattening (_flatten_messages, server.py lines 120-150)

The loop collects system-message contents and the content of the last
user message; the final expression indexes messages[-1], which raises
IndexError on an empty list.  The handler calls _flatten_messages outside
its try/except, so that IndexError escapes unhandled.
-/

/-- One OpenAI-format chat message as the server reads it. -/
structure ChatMsg where
  role : String
  content : String
deriving Repr, DecidableEq

/-- The accumulation loop of _flatten_messages (server.py lines 140-146),
with the running system_parts and last_user accumulators explicit. -/
def flattenLoop (sysParts : List String) (lastUser : String) :
    List ChatMsg → List String × String
  | [] => (sysParts, lastUser)
  | m :: rest =>
    if m.role = "system" then flattenLoop (sysParts ++ [m.content]) lastUser rest
    else if m.role = "user" then flattenLoop sysParts m.content rest
    else flattenLoop sysParts lastUser rest

/-- The _flatten_messages function.  Python string truthiness makes each
branch test non-emptiness; the fallback messages[-1] raises IndexError on
an empty list, modelled as the error case. -/
def flattenMessages (msgs : List ChatMsg) : Except String String :=
  let acc := flattenLoop [] "" msgs
  if acc.1 ≠ [] ∧ acc.2 ≠ "" then
    .ok (String.intercalate "\n\n" acc.1 ++ "\n\n" ++ acc.2)
  else if acc.2 ≠ "" then .ok acc.2
  else
    match msgs.getLast? with
    | none => .error "IndexError: list index out of range"
    | some m => .ok m.content

/-- How the chat_completions handler leaves the flattening stage: it
proceeds with a prompt, returns the structured 400 error response for an
empty prompt, or lets an exception escape unhandled (the flattening call
at server.py line 222 sits before the try at line 251). -/
inductive PromptStage where
  | proceeds (prompt : String) : PromptStage
  | badRequest (message : String) (status : Nat) : PromptStage
  | unhandledExc (message : String) : PromptStage
deriving Repr, DecidableEq

/-- The flattening stage of chat_completions (server.py lines 221-224). -/
def promptStage (msgs : List ChatMsg) : PromptStage :=
  match flattenMessages msgs with
  | .error e => .unhandledExc e
  | .ok prompt =>
    if prompt = "" then .badRequest "No user message found in messages array" 400
    else .proceeds prompt

/-! ## Conversation binding in chat_completions (server.py lines 229-267)
and the post-response store (lines 302-304 and 389-391)

With a known id the entry timestamp is refreshed; with a fresh supplied id
a new driver is bound at once; with no id a fresh id is synthesized and no
entry is made before the turn.  After a completed response, both the
non-streaming and the streaming handler store the binding whenever the
caller omitted the id (close_tab true), with the comment: store the tab
for potential reuse even if client didn't request it.
-/

/-- Update the timestamp of the entry with the given key in place. -/
def touchEntry (reg : List ConvEntry) (k : String) (now : Int) : List ConvEntry :=
  reg.map (fun e => if e.1 == k then (e.1, e.2.1, now) else e)

/-- The registry effect of one completed chat_completions request:
reqConvId is the id the caller supplied (or none), freshDriver the driver
a new tab would get, freshConvId the synthesized id, t0 the time at
binding and t1 the time at the post-response store.  Returns the final
registry and the conversation id the response carries. -/
def chatCompletionsRegistry (reg : List ConvEntry) (reqConvId : Option String)
    (freshDriver : ConvDriver) (freshConvId : String) (t0 t1 : Int) :
    List ConvEntry × String :=
  match reqConvId with
  | some cid =>
    if (reg.map (fun e => e.1)).contains cid then
      -- reuse: refresh the timestamp; close_tab is false, no later store
      (touchEntry reg cid t0, cid)
    else
      -- new conversation under the supplied id, bound immediately
      (reg ++ [(cid, freshDriver, t0)], cid)
  | none =>
    -- synthesized id: nothing bound before the turn, but both handlers
    -- store the binding after the response because close_tab is true
    (reg ++ [(freshConvId, freshDriver, t1)], freshConvId)

/-! ## Request gate (server.py _request_sem and chat_completions)

The semaphore has one slot.  The non-streaming handler awaits the whole
turn inside the async-with block, so its submission happens between
acquire and release.  The streaming handler only constructs and returns
the EventSourceResponse inside the block: the return exits the async-with
and releases the semaphore, and the event generator — which performs the
actual submission — runs afterwards, outside the gate.  We model each
request as a straight-line program of gate actions and interleave them.
-/

/-- Atomic actions of a request with respect to the gate: acquire the
semaphore, release it, begin driving the submission, finish driving it. -/
inductive GateAction where
  | acq : GateAction
  | rel : GateAction
  | startSubmit : GateAction
  | endSubmit : GateAction
deriving Repr, DecidableEq

/-- Gate-relevant program of a non-streaming request: the submission is
driven inside the semaphore block (server.py lines 254-267, 298-300). -/
def nonStreamingProg : List GateAction :=
  [.acq, .startSubmit, .endSubmit, .rel]

/-- Gate-relevant program of a streaming request: returning the
EventSourceResponse exits the async-with block, so the semaphore is
released before the event generator drives send_prompt_streaming
(server.py lines 254-261, 352-396). -/
def streamingProg : List GateAction :=
  [.acq, .rel, .startSubmit, .endSubmit]

/-- One request process: its remaining actions and whether it is currently
driving a submission. -/
structure GateProc where
  rest : List GateAction
  active : Bool
deriving Repr, DecidableEq

/-- Global state of the gate model: free slots of the semaphore and the
request processes. -/
structure GateState where
  sem : Nat
  procs : List GateProc
deriving Repr, DecidableEq

/-- Execute the next action of process i if it is enabled (acquire needs a
free slot); otherwise the state is unchanged. -/
def gateStep (st : GateState) (i : Nat) : GateState :=
  match st.procs.get? i with
  | none => st
  | some p =>
    match p.rest with
    | [] => st
    | a :: rest =>
      match a with
      | .acq =>
        if st.sem = 0 then st
        else { sem := st.sem - 1,
               procs := st.procs.set i { p with rest := rest } }
      | .rel =>
        { sem := st.sem + 1, procs := st.procs.set i { p with rest := rest } }
      | .startSubmit =>
        { st with procs := st.procs.set i { rest := rest, active := true } }
      | .endSubmit =>
        { st with procs := st.procs.set i { rest := rest, active := false } }

/-- Run a schedule (a list of process indices, each executing its next
enabled action) from a state. -/
def gateRun (st : GateState) (sched : List Nat) : GateState :=
  sched.foldl gateStep st

/-- Initial state of the server gate: one semaphore slot and the given
request programs, none yet driving a submission. -/
def gateInit (progs : List (List GateAction)) : GateState :=
  { sem := 1, procs := progs.map (fun pr => { rest := pr, active := false }) }

/-- Number of processes currently driving a submission. -/
def activeCount (st : GateState) : Nat :=
  (st.procs.filter (fun p => p.active)).length

/-! ## Example inputs used by witnesses -/

/-- Message-count trace in which the first new message appears at tick 60
(30.5 s in): inside the customgpts phase-1 window, outside the ghostgpt
one. -/
def c3Counts : Nat → Nat := fun i => if 60 ≤ i then 1 else 0

/-- A media sink whose every download fails. -/
def noDownload : String → Option String := fun _ => none

/-- Navigation environment in which the challenge resolves, one probe
errors with an ordinary timeout, and then a login indicator is visible. -/
def c7World : NavWorld :=
  { cfResolves := true,
    loginObs := [.errored "Timeout 1000ms exceeded.", .visible],
    promptFound := true }

/-- An assistant element with nonempty rendered text and no images. -/
def c9Elem : MsgElem :=
  { innerText := "  hello ", innerHtml := "<p>hello</p>", images := [] }

/-- Schedule for two requests: both pass the gate, then both drive their
submission (process 0 acts at positions 0, 1, 4 and process 1 at 2, 3, 5). -/
def c4Sched : List Nat := [0, 0, 1, 1, 0, 1]

/-- A concrete driver record used in registry witnesses. -/
def cDriver : ConvDriver := { driverId := 7, hasPage := true, midTurn := false }

/-- A registry with one expired entry and one fresh mid-turn entry. -/
def c5Reg : List ConvEntry :=
  [("old", { driverId := 1, hasPage := true, midTurn := false }, 0),
   ("fresh", { driverId := 2, hasPage := true, midTurn := true }, 2000)]

/-- A messages array with one system and one user message. -/
def c10Msgs : List ChatMsg :=
  [{ role := "system", content := "s" }, { role := "user", content := "u" }]

/-- An append-only streaming relation: t extends s (s is an initial
segment of t).  The hypothesis of the reconstruction law states that
successive effective text snapshots stand in this relation. -/
def growsInto (s t : List Char) : Prop := t.take s.length = s

/-- A two-tick append-only streaming trace: the answer text grows from h
to hi, and the completion indicator appears on the second tick. -/
def c2Trace : List PollObs :=
  [.found 1 ['h'] false, .found 1 ['h', 'i'] true]

/-! # Theorems -/

/-- C1 (amended, customgpts part): in the customgpts completion detector,
a second-phase poll tick that observes an assistant-message count at most
the pre-submission baseline neither inspects the last element nor reports
completion, and no run of the bounded phase-2 loop reports completion at
such a tick — polling simply continues. -/
theorem customgpts_stale_count_never_completes
    (prevCount count : Nat) (text : List Char) (ind : Bool)
    (h : count ≤ prevCount) :
    phase2TickCustom prevCount (.found count text ind) = (false, false) ∧
    ∀ (tr : List PollObs) (i : Nat),
      tr[i]? = some (PollObs.found count text ind) →
      phase2CompletionIdx prevCount tr ≠ some i := by
  have htick : phase2TickCustom prevCount (.found count text ind) = (false, false) := by
    simp [phase2TickCustom, h]
  refine ⟨htick, ?_⟩
  intro tr i hget hidx
  unfold phase2CompletionIdx at hidx
  rw [List.findIdx?_eq_some_iff_getElem] at hidx
  obtain ⟨hlen, hpred, -⟩ := hidx
  rw [List.getElem_take] at hpred
  obtain ⟨hlt, heq⟩ := List.getElem?_eq_some_iff.mp hget
  rw [heq, htick] at hpred
  simp at hpred

/-- Witness for C1: a concrete stale tick (baseline 2, observed count 2)
is inconclusive, and a run whose tick 0 is that observation does not
complete at tick 0. -/
theorem customgpts_stale_count_never_completes_witness :
    phase2TickCustom 2 (.found 2 [] true) = (false, false) ∧
    phase2CompletionIdx 2 [PollObs.found 2 [] true] ≠ some 0 := by
  have h := customgpts_stale_count_never_completes 2 2 [] true (by decide)
  exact ⟨h.1, h.2 [PollObs.found 2 [] true] 0 rfl⟩

/-- C1 counterexample: the ghostgpt completion detector (ghostgpt/driver.py
lines 246-268), which the claim also covers, has no count guard: a
second-phase tick that observes count 1 with baseline 1 — a stale count —
still inspects the (stale) last element and, its indicator being present,
reports completion on that very tick. -/
theorem ghost_phase2_completes_on_stale_count :
    (1 : Nat) ≤ 1 ∧
    phase2TickGhost 1 (.found 1 ['o', 'l', 'd'] true) = (true, true) := by
  exact ⟨le_refl 1, rfl⟩

/-- C3 (amended): phase 1 of _wait_for_response polls the message count
once per 0.5 s tick and leaves the phase at the first tick whose count
exceeds the baseline; the customgpts bound is 120 ticks (60 s) but the
ghostgpt bound is 60 ticks (30 s); when the bound expires the wait returns
the soft no-answer outcome and send_prompt still returns the extraction
result instead of raising. -/
theorem phase1_bounds_and_soft_timeout (prevCount : Nat) (counts : Nat → Nat) :
    (∀ i, phase1Custom prevCount counts = some i →
      prevCount < counts i ∧ i < phase1ItersCustom ∧
      ∀ j, j < i → counts j ≤ prevCount) ∧
    ((∀ i, i < phase1ItersCustom → counts i ≤ prevCount) →
      phase1Custom prevCount counts = none ∧
      ∀ trace, waitForResponseCustom prevCount counts trace = .noAnswer) ∧
    (∀ trace download finalMsgs,
      sendPromptCustom prevCount counts trace download finalMsgs =
        extractResponse download finalMsgs) ∧
    (∀ i, phase1Ghost prevCount counts = some i →
      prevCount < counts i ∧ i < phase1ItersGhost ∧
      ∀ j, j < i → counts j ≤ prevCount) ∧
    ((∀ i, i < phase1ItersGhost → counts i ≤ prevCount) →
      phase1Ghost prevCount counts = none) := by
  have hsome : ∀ (n : Nat) (i : Nat),
      phase1Run n prevCount counts = some i →
      prevCount < counts i ∧ i < n ∧ ∀ j, j < i → counts j ≤ prevCount := by
    intro n i h
    unfold phase1Run at h
    rw [List.find?_range_eq_some] at h
    obtain ⟨hp, hmem, hprev⟩ := h
    refine ⟨of_decide_eq_true hp, List.mem_range.mp hmem, ?_⟩
    intro j hj
    have hj2 := hprev j hj
    simp only [Bool.not_eq_true', decide_eq_false_iff_not, Nat.not_lt] at hj2
    exact hj2
  have hnone : ∀ (n : Nat), (∀ i, i < n → counts i ≤ prevCount) →
      phase1Run n prevCount counts = none := by
    intro n hall
    unfold phase1Run
    rw [List.find?_eq_none]
    intro x hx
    simp only [decide_eq_true_eq, Nat.not_lt]
    exact hall x (List.mem_range.mp hx)
  refine ⟨fun i h => hsome _ i h, ?_, ?_, fun i h => hsome _ i h,
    fun h => hnone _ h⟩
  · intro hall
    have h0 : phase1Custom prevCount counts = none := hnone _ hall
    refine ⟨h0, fun trace => ?_⟩
    unfold waitForResponseCustom
    rw [h0]
  · intro trace download finalMsgs
    unfold sendPromptCustom
    cases waitForResponseCustom prevCount counts trace <;> rfl

/-- Witness for C3: with a first message at tick 60, the customgpts phase 1
reports tick 60, all earlier ticks show no new message, and send_prompt on
an exhausted run still returns the extractor output. -/
theorem phase1_bounds_and_soft_timeout_witness :
    (0 < c3Counts 60 ∧ 60 < phase1ItersCustom ∧
      ∀ j, j < 60 → c3Counts j ≤ 0) ∧
    sendPromptCustom 0 c3Counts [] noDownload [] =
      extractResponse noDownload [] := by
  refine ⟨(phase1_bounds_and_soft_timeout 0 c3Counts).1 60 ?_, ?_⟩
  · decide
  · exact (phase1_bounds_and_soft_timeout 0 c3Counts).2.2.1 [] noDownload []

/-- C3 counterexample: the ghostgpt driver, which the claim also covers,
bounds phase 1 at 60 ticks of 0.5 s — a 30-second window, not 60: with a
new message first observed at tick 60 the ghostgpt phase 1 gives up while
the customgpts phase 1 (120 ticks) finds it. -/
theorem ghost_phase1_window_is_half :
    phase1ItersGhost * POLL_TICK_TENTHS / 10 = 30 ∧
    phase1ItersGhost * POLL_TICK_TENTHS / 10 ≠ 60 ∧
    phase1ItersCustom * POLL_TICK_TENTHS / 10 = 60 ∧
    phase1Ghost 0 c3Counts = none ∧
    phase1Custom 0 c3Counts = some 60 := by
  refine ⟨rfl, by decide, rfl, ?_, ?_⟩ <;> decide

/-- Helper: the login-indicator loop propagates the logged-out error as
soon as some indicator is visible, provided ordinary probe failures do not
themselves mention the text logged out. -/
theorem loginCheck_error_of_visible (raiseMsg : String)
    (hmsg : mentionsLoggedOut raiseMsg = true) (os : List IndicatorObs)
    (hvis : IndicatorObs.visible ∈ os)
    (herr : ∀ m, IndicatorObs.errored m ∈ os → mentionsLoggedOut m = false) :
    loginCheck raiseMsg os = .error raiseMsg := by
  induction os with
  | nil => cases hvis
  | cons o rest ih =>
    cases o with
    | visible => simp [loginCheck, loginStep, hmsg]
    | hidden =>
      have hv : IndicatorObs.visible ∈ rest :=
        (List.mem_cons.mp hvis).resolve_left (by simp)
      simp only [loginCheck, loginStep]
      exact ih hv fun m hm => herr m (List.mem_cons_of_mem _ hm)
    | errored m =>
      have hm : mentionsLoggedOut m = false := herr m (List.mem_cons_self _ _)
      have hv : IndicatorObs.visible ∈ rest :=
        (List.mem_cons.mp hvis).resolve_left (by simp)
      simp only [loginCheck, loginStep, hm]
      simpa using ih hv fun m2 hm2 => herr m2 (List.mem_cons_of_mem _ hm2)

/-- C7: when a login indicator is visible after navigation (and probe
failures carry ordinary messages), placement fails with the logged-out
error — the error is re-raised, not swallowed —, the prompt-input wait
never runs, and _send_and_get_prev_count propagates the failure without
submitting any prompt. -/
theorem login_indicator_aborts_placement
    (pageUrl : Option String) (gptId : Option String) (w : NavWorld)
    (hnav : pageUrl.getD "about:blank" ≠ targetUrl gptId)
    (hcf : w.cfResolves = true)
    (hvis : IndicatorObs.visible ∈ w.loginObs)
    (herr : ∀ m, IndicatorObs.errored m ∈ w.loginObs →
      mentionsLoggedOut m = false) :
    (ensurePage pageUrl gptId w).2 = .error loggedOutMsgCustom ∧
    (ensurePage pageUrl gptId w).1.promptWaited = false ∧
    ∀ (contc inconv promptVis : Bool) (prevCount : Nat),
      (contc && inconv) = false →
      sendAndGetPrevCount pageUrl gptId w contc inconv promptVis prevCount =
        ((ensurePage pageUrl gptId w).1, false, .error loggedOutMsgCustom) := by
  have hlogin : loginCheck loggedOutMsgCustom w.loginObs =
      .error loggedOutMsgCustom :=
    loginCheck_error_of_visible _ (by decide) _ hvis herr
  have hens : ensurePage pageUrl gptId w =
      ({ createdPage := pageUrl.isNone, navigated := true,
         challengeWaited := true, dialogsDismissed := true,
         loginChecked := true, promptWaited := false },
       .error loggedOutMsgCustom) := by
    unfold ensurePage
    rw [if_neg hnav, hcf]
    simp [hlogin, noEffects]
  refine ⟨by rw [hens], by rw [hens], ?_⟩
  intro contc inconv promptVis prevCount hcc
  unfold sendAndGetPrevCount
  rw [hcc]
  simp only [Bool.false_eq_true, if_neg (by simp : ¬False)]
  rw [hens]

/-- Witness for C7: with the page at about:blank, a probe timeout followed
by a visible login indicator makes placement fail with the logged-out
error before any prompt wait, and no prompt is submitted. -/
theorem login_indicator_aborts_placement_witness :
    (ensurePage (some "about:blank") none c7World).2 =
      .error loggedOutMsgCustom ∧
    (ensurePage (some "about:blank") none c7World).1.promptWaited = false ∧
    sendAndGetPrevCount (some "about:blank") none c7World false false true 0 =
      ((ensurePage (some "about:blank") none c7World).1, false,
        .error loggedOutMsgCustom) := by
  have h := login_indicator_aborts_placement (some "about:blank") none c7World
    (by decide) rfl (by simp [c7World])
    (by
      intro m hm
      simp only [c7World, List.mem_cons, List.not_mem_nil, or_false] at hm
      rcases hm with hm | hm
      · rw [IndicatorObs.errored.injEq] at hm
        subst hm
        decide
      · exact absurd hm (by simp))
  exact ⟨h.1, h.2.1, h.2.2 false false true 0 rfl⟩

/-- C8: when the current page url already equals the computed target url
(base app, or the named variant when a gpt id is supplied), _ensure_page
returns at once: no navigation, no challenge wait, no dialog suppression
or dismissal, no login check, no prompt-input wait — no stage executes and
the call succeeds, leaving in-page state untouched. -/
theorem ensure_page_fast_path (gptId : Option String) (w : NavWorld) :
    ensurePage (some (targetUrl gptId)) gptId w = (noEffects, .ok ()) := by
  unfold ensurePage
  simp [noEffects]

/-- C9: response extraction returns the stripped rendered text of the last
assistant element when that is nonempty, falls back to the stripped raw
markup otherwise, and returns a fixed error string — without raising —
when no selector matched any element. -/
theorem extract_response_spec (download : String → Option String)
    (pre : List MsgElem) (m : MsgElem) (himg : m.images = []) :
    extractResponse download [] = "Error: No assistant message found." ∧
    (stripStr m.innerText ≠ "" →
      extractResponse download (pre ++ [m]) = stripStr m.innerText) ∧
    (stripStr m.innerText = "" →
      extractResponse download (pre ++ [m]) = stripStr m.innerHtml) := by
  have hlast : (pre ++ [m]).getLast? = some m := List.getLast?_concat pre
  refine ⟨rfl, ?_, ?_⟩
  · intro ht
    unfold extractResponse
    rw [hlast]
    simp [himg, ht, String.join]
  · intro ht
    unfold extractResponse
    rw [hlast]
    simp [himg, ht, String.join]

/-- Witness for C9: a concrete element with rendered text hello (padded
with whitespace) and no images extracts to hello. -/
theorem extract_response_spec_witness :
    extractResponse noDownload [c9Elem] = stripStr c9Elem.innerText := by
  exact (extract_response_spec noDownload [] c9Elem rfl).2.1 (by decide)

/-- C4 (code bug): in the gate model taken from chat_completions, two
streaming requests — each of which does acquire the single-slot semaphore
before submitting — end up driving their submissions at the same instant,
because the streaming handler releases the gate when it returns the
EventSourceResponse, before the event generator performs the submission.
Under the very same schedule, two non-streaming requests (which submit
inside the semaphore block) never exceed one active submission. -/
theorem streaming_submissions_escape_gate :
    activeCount (gateRun (gateInit [streamingProg, streamingProg]) c4Sched) = 2 ∧
    (∀ k, k ≤ c4Sched.length →
      activeCount (gateRun (gateInit [nonStreamingProg, nonStreamingProg])
        (c4Sched.take k)) ≤ 1) := by
  constructor
  · rfl
  · decide

/-- C6 (amended): with the conversation id omitted, chat_completions
synthesizes a fresh id and binds a fresh driver, and after the response
both handlers store that binding in the conversation map even though the
caller never asked to persist it (close_tab is true exactly when the id
was omitted); a supplied unknown id is bound immediately, and a supplied
known id only has its timestamp refreshed. -/
theorem conversation_binding_spec (reg : List ConvEntry)
    (freshDriver : ConvDriver) (freshConvId : String) (t0 t1 : Int) :
    ((chatCompletionsRegistry reg none freshDriver freshConvId t0 t1).2 =
        freshConvId ∧
      (freshConvId, freshDriver, t1) ∈
        (chatCompletionsRegistry reg none freshDriver freshConvId t0 t1).1 ∧
      ∀ e ∈ reg, e ∈
        (chatCompletionsRegistry reg none freshDriver freshConvId t0 t1).1) ∧
    (∀ cid, (reg.map (fun e => e.1)).contains cid = false →
      chatCompletionsRegistry reg (some cid) freshDriver freshConvId t0 t1 =
        (reg ++ [(cid, freshDriver, t0)], cid)) ∧
    (∀ cid, (reg.map (fun e => e.1)).contains cid = true →
      chatCompletionsRegistry reg (some cid) freshDriver freshConvId t0 t1 =
        (touchEntry reg cid t0, cid)) := by
  refine ⟨⟨rfl, ?_, ?_⟩, ?_, ?_⟩
  · simp [chatCompletionsRegistry]
  · intro e he
    simp [chatCompletionsRegistry]
    exact Or.inl he
  · intro cid hc
    simp only [chatCompletionsRegistry, hc, Bool.false_eq_true, if_false]
  · intro cid hc
    simp only [chatCompletionsRegistry, hc, if_true]

/-- Witness for C6 (amended): on an empty registry, an id-less request
leaves the synthesized binding stored, and a supplied unknown id is bound
immediately. -/
theorem conversation_binding_spec_witness :
    ("conv-abc", cDriver, 20) ∈
      (chatCompletionsRegistry [] none cDriver "conv-abc" 10 20).1 ∧
    chatCompletionsRegistry [] (some "A") cDriver "conv-abc" 10 20 =
      ([("A", cDriver, 10)], "A") := by
  have h := conversation_binding_spec [] cDriver "conv-abc" 10 20
  exact ⟨h.1.2.1, by simpa using h.2.1 "A" rfl⟩

/-- C6 counterexample: a request that omits the conversation id, served on
an empty registry, leaves a lasting entry in the registry even though the
caller never asked to persist anything — the map is not empty afterwards. -/
theorem omitted_id_leaves_entry :
    (chatCompletionsRegistry [] none cDriver "conv-abc" 10 20).1 =
      [("conv-abc", cDriver, 20)] ∧
    (chatCompletionsRegistry [] none cDriver "conv-abc" 10 20).1 ≠ [] := by
  exact ⟨rfl, by decide⟩

/-- Helper: on a registry with distinct keys, popping a key removes
exactly the entries bearing that key. -/
theorem eraseKey_eq_filter (k : String) (reg : List ConvEntry)
    (h : (reg.map (fun e => e.1)).Nodup) :
    reg.eraseP (fun e => e.1 == k) = reg.filter (fun e => !(e.1 == k)) := by
  induction reg with
  | nil => rfl
  | cons e t ih =>
    rw [List.map_cons, List.nodup_cons] at h
    obtain ⟨hnot, ht⟩ := h
    by_cases hk : e.1 = k
    · have hbeq : (e.1 == k) = true := beq_iff_eq.mpr hk
      rw [List.eraseP_cons, List.filter_cons, hbeq]
      simp only [cond_true, Bool.not_true, Bool.false_eq_true, if_false]
      symm
      rw [List.filter_eq_self]
      intro a ha
      simp only [Bool.not_eq_true', beq_eq_false_iff_ne]
      intro hak
      exact hnot (by
        rw [hk, ← hak]
        exact List.mem_map.mpr ⟨a, ha, rfl⟩)
    · have hbeq : (e.1 == k) = false := beq_eq_false_iff_ne.mpr hk
      rw [List.eraseP_cons, List.filter_cons, hbeq]
      simp only [cond_false, Bool.not_false, if_true]
      rw [ih ht]

/-- Helper: popping a list of keys from a registry with distinct keys
removes exactly the entries bearing one of those keys. -/
theorem removeKeys_eq_filter (ks : List String) :
    ∀ (reg : List ConvEntry), (reg.map (fun e => e.1)).Nodup →
    ks.foldl (fun r k => r.eraseP (fun e => e.1 == k)) reg =
      reg.filter (fun e => !(ks.contains e.1)) := by
  induction ks with
  | nil =>
    intro reg _
    rw [List.foldl_nil]
    symm
    rw [List.filter_eq_self]
    intro a _
    rfl
  | cons k ks ih =>
    intro reg h
    rw [List.foldl_cons, eraseKey_eq_filter k reg h]
    have h2 : ((reg.filter (fun e => !(e.1 == k))).map (fun e => e.1)).Nodup :=
      List.Sublist.nodup (List.Sublist.map _ (List.filter_sublist reg)) h
    rw [ih _ h2, List.filter_filter]
    apply List.filter_congr
    intro a _
    rw [List.contains_cons, Bool.not_or, Bool.and_comm]

/-- C5: for every registry state and sweep time, the idle sweep removes
exactly the entries with now - last_active > 1800 s (their page closes are
attempted, and close failures change nothing), and every other entry —
mid-turn or not — survives completely unchanged. -/
theorem cleanup_idle_spec (closeFails : String → Bool) (now : Int)
    (reg : List ConvEntry) (hkeys : (reg.map (fun e => e.1)).Nodup) :
    (cleanupIdle closeFails now reg).1 =
      reg.filter (fun e => decide (now - e.2.2 ≤ IDLE_TIMEOUT)) ∧
    (cleanupIdle closeFails now reg).2.1 =
      (reg.filter (fun e => decide (IDLE_TIMEOUT < now - e.2.2))).map
        (fun e => e.1) ∧
    (∀ e ∈ reg, now - e.2.2 ≤ IDLE_TIMEOUT →
      e ∈ (cleanupIdle closeFails now reg).1) ∧
    (∀ e ∈ reg, IDLE_TIMEOUT < now - e.2.2 →
      e ∉ (cleanupIdle closeFails now reg).1) ∧
    (∀ g : String → Bool,
      (cleanupIdle g now reg).1 = (cleanupIdle closeFails now reg).1) := by
  have hmain : (cleanupIdle closeFails now reg).1 =
      reg.filter (fun e => decide (now - e.2.2 ≤ IDLE_TIMEOUT)) := by
    show (idleIds now reg).foldl (fun r k => r.eraseP (fun e => e.1 == k)) reg = _
    rw [removeKeys_eq_filter _ reg hkeys]
    apply List.filter_congr
    intro a ha
    by_cases hexp : IDLE_TIMEOUT < now - a.2.2
    · have hin : a.1 ∈ idleIds now reg := by
        unfold idleIds
        exact List.mem_map.mpr
          ⟨a, List.mem_filter.mpr ⟨ha, decide_eq_true hexp⟩, rfl⟩
      have hc : (idleIds now reg).contains a.1 = true := List.elem_iff.mpr hin
      rw [hc]
      simp [hexp, not_le.mpr hexp]
    · have hnotin : a.1 ∉ idleIds now reg := by
        intro hmem
        unfold idleIds at hmem
        obtain ⟨e2, he2, heq⟩ := List.mem_map.mp hmem
        obtain ⟨he2reg, hexp2⟩ := List.mem_filter.mp he2
        have hea : e2 = a := List.inj_on_of_nodup_map hkeys he2reg ha heq
        rw [hea] at hexp2
        exact hexp (of_decide_eq_true hexp2)
      have hc : (idleIds now reg).contains a.1 = false := by
        cases hcc : (idleIds now reg).contains a.1
        · rfl
        · exact absurd (List.elem_iff.mp hcc) hnotin
      rw [hc]
      simp [not_lt.mp hexp]
  refine ⟨hmain, rfl, ?_, ?_, fun g => rfl⟩
  · intro e he hle
    rw [hmain]
    exact List.mem_filter.mpr ⟨he, decide_eq_true hle⟩
  · intro e he hexp hmem
    rw [hmain] at hmem
    have hle := of_decide_eq_true (List.mem_filter.mp hmem).2
    exact absurd hle (not_le.mpr hexp)

/-- Witness for C5: sweeping a registry with an expired entry and a fresh
mid-turn entry at time 2000 keeps the fresh entry untouched and drops the
expired one. -/
theorem cleanup_idle_spec_witness :
    ("fresh", { driverId := 2, hasPage := true, midTurn := true }, 2000) ∈
      (cleanupIdle (fun _ => false) 2000 c5Reg).1 ∧
    ("old", { driverId := 1, hasPage := true, midTurn := false }, 0) ∉
      (cleanupIdle (fun _ => false) 2000 c5Reg).1 := by
  have h := cleanup_idle_spec (fun _ => false) 2000 c5Reg (by decide)
  exact ⟨h.2.2.1 _ (by decide) (by decide), h.2.2.2.1 _ (by decide) (by decide)⟩

/-- Helper: closed form of the _flatten_messages accumulation loop — it
collects the system-message contents in order and the content of the last
user message (the given default when there is none). -/
theorem flattenLoop_eq (msgs : List ChatMsg) :
    ∀ (sys : List String) (lu : String),
    flattenLoop sys lu msgs =
      (sys ++ (msgs.filter (fun m => m.role == "system")).map
          (fun m => m.content),
        ((msgs.filter (fun m => m.role == "user")).map
          (fun m => m.content)).getLast?.getD lu) := by
  induction msgs with
  | nil =>
    intro sys lu
    simp [flattenLoop]
  | cons m rest ih =>
    intro sys lu
    by_cases hs : m.role = "system"
    · have h1 : (m.role == "system") = true := beq_iff_eq.mpr hs
      have h2 : (m.role == "user") = false := by
        refine beq_eq_false_iff_ne.mpr ?_
        rw [hs]
        decide
      simp only [flattenLoop, if_pos hs, ih, List.filter_cons, h1, h2,
        if_true, Bool.false_eq_true, if_false, List.map_cons,
        List.append_assoc, List.cons_append, List.nil_append]
    · by_cases hu : m.role = "user"
      · have h1 : (m.role == "system") = false := beq_eq_false_iff_ne.mpr hs
        have h2 : (m.role == "user") = true := beq_iff_eq.mpr hu
        simp only [flattenLoop, if_neg hs, if_pos hu, ih, List.filter_cons,
          h1, h2, if_true, Bool.false_eq_true, if_false, List.map_cons,
          List.getLast?_cons, Option.getD_some]
      · have h1 : (m.role == "system") = false := beq_eq_false_iff_ne.mpr hs
        have h2 : (m.role == "user") = false := beq_eq_false_iff_ne.mpr hu
        simp only [flattenLoop, if_neg hs, if_neg hu, ih, List.filter_cons,
          h1, h2, Bool.false_eq_true, if_false]

/-- C10 (amended): on the empty messages array _flatten_messages raises
IndexError and, since the handler calls it outside its try/except, the
exception escapes unhandled instead of becoming the structured error
response; on every non-empty array it returns the system contents joined
by blank lines followed by the last user content when both are non-empty,
else the last user content when that is non-empty, else the content of
the final message regardless of role. -/
theorem flatten_messages_spec (msgs : List ChatMsg) (hne : msgs ≠ []) :
    (flattenMessages [] = .error "IndexError: list index out of range" ∧
      promptStage [] = .unhandledExc "IndexError: list index out of range") ∧
    ∀ (sys : List String) (lu : String),
      sys = (msgs.filter (fun m => m.role == "system")).map
        (fun m => m.content) →
      lu = ((msgs.filter (fun m => m.role == "user")).map
        (fun m => m.content)).getLast?.getD "" →
      flattenMessages msgs =
        if sys ≠ [] ∧ lu ≠ "" then
          .ok (String.intercalate "\n\n" sys ++ "\n\n" ++ lu)
        else if lu ≠ "" then .ok lu
        else .ok (msgs.getLast hne).content := by
  refine ⟨⟨rfl, rfl⟩, ?_⟩
  intro sys lu hsys hlu
  unfold flattenMessages
  rw [flattenLoop_eq]
  simp only [List.nil_append, ← hsys, ← hlu]
  rw [List.getLast?_eq_getLast msgs hne]

/-- Witness for C10: one system message s followed by one user message u
flattens to s, a blank line, then u. -/
theorem flatten_messages_spec_witness :
    flattenMessages c10Msgs = .ok ("s" ++ "\n\n" ++ "u") := by
  have h := (flatten_messages_spec c10Msgs (by decide)).2 ["s"] "u" rfl rfl
  rw [h]
  rfl

/-- C10 counterexample: with messages [user with empty content, assistant
with content x] a user message does exist, yet _flatten_messages returns
the content of the final message (x) — not the last user message — because
the Python fallback tests the truthiness of last_user, not the presence of
a user message. -/
theorem flatten_empty_user_falls_through :
    flattenMessages
        [{ role := "user", content := "" },
         { role := "assistant", content := "x" }] = .ok "x" ∧
    ("x" : String) ≠ "" ∧
    ({ role := "user", content := "" } : ChatMsg) ∈
      [({ role := "user", content := "" } : ChatMsg),
       { role := "assistant", content := "x" }] := by
  exact ⟨rfl, by decide, by decide⟩

/-- Helper: an extension is at least as long as what it extends. -/
theorem growsInto_length {s t : List Char} (h : growsInto s t) :
    s.length ≤ t.length := by
  have h2 := congrArg List.length h
  rw [List.length_take] at h2
  exact min_eq_left_iff.mp h2

/-- Helper: an extension that is not strictly longer is equal. -/
theorem growsInto_eq_of_not_lt {s t : List Char} (h : growsInto s t)
    (hlen : ¬ s.length < t.length) : t = s := by
  have hle := growsInto_length h
  have heq : t.length = s.length := le_antisymm (not_lt.mp hlen) hle
  calc t = t.take t.length := (List.take_length t).symm
  _ = t.take s.length := by rw [heq]
  _ = s := h

/-- Helper: what it extends, followed by the new suffix, is the extension. -/
theorem growsInto_append_drop {s t : List Char} (h : growsInto s t) :
    s ++ t.drop s.length = t := by
  conv_rhs => rw [← List.take_append_drop s.length t]
  rw [h]

/-- Helper: a tick with no text growth and no completion indicator emits
nothing and leaves the recorded text unchanged. -/
theorem streamRun_cons_nogrow_nocomplete (prevCount : Nat) (prev : List Char)
    (obs : PollObs) (rest : List PollObs)
    (hle : (streamText prevCount obs).length ≤ prev.length)
    (hc : streamCompleted prevCount obs = false) :
    streamRun prevCount prev (obs :: rest) = streamRun prevCount prev rest := by
  have hg : ¬ prev.length < (streamText prevCount obs).length := not_lt.mpr hle
  rcases hres : streamRun prevCount prev rest with ⟨ds, pf, fin⟩
  simp only [streamRun, hc, if_neg hg, Bool.false_eq_true, if_false, hres,
    List.nil_append]

/-- Helper: a completing tick with no text growth emits nothing and ends
the stream at the observed text. -/
theorem streamRun_cons_nogrow_complete (prevCount : Nat) (prev : List Char)
    (obs : PollObs) (rest : List PollObs)
    (hle : (streamText prevCount obs).length ≤ prev.length)
    (hc : streamCompleted prevCount obs = true) :
    streamRun prevCount prev (obs :: rest) =
      ([], prev, some (streamText prevCount obs)) := by
  have hg : ¬ prev.length < (streamText prevCount obs).length := not_lt.mpr hle
  simp only [streamRun, hc, if_neg hg, if_true, List.nil_append]

/-- Helper: a growing, non-completing tick emits exactly the new suffix
and records the longer text. -/
theorem streamRun_cons_grow_nocomplete (prevCount : Nat) (prev : List Char)
    (obs : PollObs) (rest : List PollObs)
    (hg : prev.length < (streamText prevCount obs).length)
    (hc : streamCompleted prevCount obs = false) :
    streamRun prevCount prev (obs :: rest) =
      ((streamText prevCount obs).drop prev.length ::
          (streamRun prevCount (streamText prevCount obs) rest).1,
        (streamRun prevCount (streamText prevCount obs) rest).2) := by
  rcases hres : streamRun prevCount (streamText prevCount obs) rest
    with ⟨ds, pf, fin⟩
  simp only [streamRun, hc, if_pos hg, Bool.false_eq_true, if_false, hres,
    List.singleton_append]

/-- Helper: a growing, completing tick emits exactly the new suffix and
ends the stream at the observed text (the post-completion extra yield
never fires, the recorded text having just been updated). -/
theorem streamRun_cons_grow_complete (prevCount : Nat) (prev : List Char)
    (obs : PollObs) (rest : List PollObs)
    (hg : prev.length < (streamText prevCount obs).length)
    (hc : streamCompleted prevCount obs = true) :
    streamRun prevCount prev (obs :: rest) =
      ([(streamText prevCount obs).drop prev.length],
        streamText prevCount obs, some (streamText prevCount obs)) := by
  simp only [streamRun, hc, if_pos hg, if_true, lt_irrefl, if_false,
    List.append_nil]

/-- Helper: over an append-only trace (successive effective texts extend
each other, starting from the recorded text), every emitted delta is
nonempty, the final recorded text is the starting text followed by the
concatenation of the deltas, and when the stream ends on a completion
indicator the final recorded text equals the text observed at that tick. -/
theorem streamRun_chain (prevCount : Nat) :
    ∀ (tr : List PollObs) (prev : List Char),
    List.Chain' growsInto (prev :: tr.map (streamText prevCount)) →
    (∀ d ∈ (streamRun prevCount prev tr).1, d ≠ []) ∧
    (streamRun prevCount prev tr).2.1 =
      prev ++ (streamRun prevCount prev tr).1.flatten ∧
    (∀ endText, (streamRun prevCount prev tr).2.2 = some endText →
      (streamRun prevCount prev tr).2.1 = endText) := by
  intro tr
  induction tr with
  | nil =>
    intro prev _
    refine ⟨?_, ?_, ?_⟩ <;> simp [streamRun]
  | cons obs rest ih =>
    intro prev hchain
    rw [List.map_cons, List.chain'_cons] at hchain
    obtain ⟨h1, h2⟩ := hchain
    by_cases hg : prev.length < (streamText prevCount obs).length
    · have hdelta : prev ++ (streamText prevCount obs).drop prev.length =
          streamText prevCount obs := growsInto_append_drop h1
      have hdne : (streamText prevCount obs).drop prev.length ≠ [] := by
        intro hnil
        have := congrArg List.length hnil
        rw [List.length_drop] at this
        simp at this
        omega
      cases hc : streamCompleted prevCount obs
      · rw [streamRun_cons_grow_nocomplete prevCount prev obs rest hg hc]
        obtain ⟨hne, hpf, hfin⟩ := ih (streamText prevCount obs) h2
        refine ⟨?_, ?_, ?_⟩
        · intro d hd
          rcases List.mem_cons.mp hd with hd | hd
          · rw [hd]; exact hdne
          · exact hne d hd
        · simp only [List.flatten_cons, hpf, ← List.append_assoc, hdelta]
        · intro endText hend
          exact hfin endText hend
      · rw [streamRun_cons_grow_complete prevCount prev obs rest hg hc]
        refine ⟨?_, ?_, ?_⟩
        · intro d hd
          rcases List.mem_cons.mp hd with hd | hd
          · rw [hd]; exact hdne
          · cases hd
        · simp [hdelta]
        · intro endText hend
          cases hend
          rfl
    · have hle : (streamText prevCount obs).length ≤ prev.length := not_lt.mp hg
      have hceq : streamText prevCount obs = prev := growsInto_eq_of_not_lt h1 hg
      cases hc : streamCompleted prevCount obs
      · rw [streamRun_cons_nogrow_nocomplete prevCount prev obs rest hle hc]
        apply ih prev
        rw [← hceq]
        exact h2
      · rw [streamRun_cons_nogrow_complete prevCount prev obs rest hle hc]
        refine ⟨?_, ?_, ?_⟩
        · intro d hd
          cases hd
        · simp
        · intro endText hend
          cases hend
          rw [hceq]

/-- C2 (amended): every streaming tick emits a delta exactly when the
effective text is strictly longer than the recorded text, the delta being
the suffix of the current snapshot starting at the length of the recorded
text; and on append-only runs — runs in which each effective snapshot
extends the previous one — the concatenation of all emitted deltas, in
emission order and with no reordering or duplication possible, equals the
full text observed at the tick on which the completion indicator ends the
stream. -/
theorem streaming_delta_engine_spec (prevCount : Nat) :
    (∀ (prev : List Char) (obs : PollObs) (rest : List PollObs),
      (streamText prevCount obs).length ≤ prev.length →
      streamCompleted prevCount obs = false →
      streamRun prevCount prev (obs :: rest) =
        streamRun prevCount prev rest) ∧
    (∀ (prev : List Char) (obs : PollObs) (rest : List PollObs),
      prev.length < (streamText prevCount obs).length →
      streamCompleted prevCount obs = false →
      streamRun prevCount prev (obs :: rest) =
        ((streamText prevCount obs).drop prev.length ::
            (streamRun prevCount (streamText prevCount obs) rest).1,
          (streamRun prevCount (streamText prevCount obs) rest).2)) ∧
    (∀ (prev : List Char) (obs : PollObs) (rest : List PollObs),
      prev.length < (streamText prevCount obs).length →
      streamCompleted prevCount obs = true →
      streamRun prevCount prev (obs :: rest) =
        ([(streamText prevCount obs).drop prev.length],
          streamText prevCount obs, some (streamText prevCount obs))) ∧
    (∀ (tr : List PollObs) (endText : List Char),
      List.Chain' growsInto
        ((tr.take (MAX_RESPONSE_WAIT * 3)).map (streamText prevCount)) →
      (sendPromptStreamingPhase2 prevCount tr).2.2 = some endText →
      (sendPromptStreamingPhase2 prevCount tr).1.flatten = endText ∧
      ∀ d ∈ (sendPromptStreamingPhase2 prevCount tr).1, d ≠ []) := by
  refine ⟨fun prev obs rest hle hc =>
      streamRun_cons_nogrow_nocomplete prevCount prev obs rest hle hc,
    fun prev obs rest hg hc =>
      streamRun_cons_grow_nocomplete prevCount prev obs rest hg hc,
    fun prev obs rest hg hc =>
      streamRun_cons_grow_complete prevCount prev obs rest hg hc,
    ?_⟩
  intro tr endText hchain hend
  have hchain2 : List.Chain' growsInto
      ([] :: (tr.take (MAX_RESPONSE_WAIT * 3)).map (streamText prevCount)) := by
    rw [List.chain'_cons']
    exact ⟨fun b _ => rfl, hchain⟩
  obtain ⟨hne, hpf, hfin⟩ :=
    streamRun_chain prevCount (tr.take (MAX_RESPONSE_WAIT * 3)) [] hchain2
  refine ⟨?_, hne⟩
  have hend2 := hfin endText hend
  rw [← hend2, hpf]
  simp [sendPromptStreamingPhase2]

/-- Witness for C2: on the two-tick append-only trace h, hi the engine
emits the deltas h then i, both nonempty, whose concatenation hi equals
the text observed at the completing tick. -/
theorem streaming_delta_engine_spec_witness :
    (sendPromptStreamingPhase2 0 c2Trace).1.flatten = ['h', 'i'] ∧
    ∀ d ∈ (sendPromptStreamingPhase2 0 c2Trace).1, d ≠ [] := by
  have hch : List.Chain' growsInto
      ((c2Trace.take (MAX_RESPONSE_WAIT * 3)).map (streamText 0)) := by
    show List.Chain' growsInto [['h'], ['h', 'i']]
    rw [List.chain'_cons]
    exact ⟨rfl, List.chain'_singleton _⟩
  exact (streaming_delta_engine_spec 0).2.2.2 c2Trace ['h', 'i'] hch rfl

/-- C2 counterexample: on a run whose snapshot shrinks at the completing
tick — the text reads ab on the first tick but only a when the completion
indicator appears — the engine has emitted the single delta ab, while the
final full text at stream end is a: the concatenation of the emitted
deltas does not equal the final text, so the law fails on non-append-only
runs. -/
theorem streaming_delta_shrink_breaks_law :
    (sendPromptStreamingPhase2 0
        [PollObs.found 1 ['a', 'b'] false, PollObs.found 1 ['a'] true]).1 =
      [['a', 'b']] ∧
    (sendPromptStreamingPhase2 0
        [PollObs.found 1 ['a', 'b'] false, PollObs.found 1 ['a'] true]).2.2 =
      some ['a'] ∧
    ([['a', 'b']] : List (List Char)).flatten ≠ ['a'] := by
  refine ⟨by decide, by decide, by decide⟩

end GhostGPT
